import Mathlib

/-!
Shallow embedding of the orbit-camera core from src/src/main.rs.

The Rust code works on f32; we model f32 values as real numbers with exact
arithmetic (the idealized semantics of the floating-point program), and the
glam Vec3 type as a record of three reals. Entities are opaque identifiers
and a Transform is modelled by its translation (the look_at orientation
written by move_camera is outside the scope of the claims).
-/

noncomputable section

/-- Model of glam Vec3 (three f32 components, here reals). -/
structure Vec3 where
  x : ℝ
  y : ℝ
  z : ℝ

/-- Vec3::default() is the zero vector. -/
def Vec3.default : Vec3 := ⟨0, 0, 0⟩

instance : Add Vec3 := ⟨fun a b => ⟨a.x + b.x, a.y + b.y, a.z + b.z⟩⟩

instance : Sub Vec3 := ⟨fun a b => ⟨a.x - b.x, a.y - b.y, a.z - b.z⟩⟩

/-- Componentwise scaling, the `point * distance` of the source. -/
def Vec3.scale (v : Vec3) (s : ℝ) : Vec3 := ⟨v.x * s, v.y * s, v.z * s⟩

/-- glam length_squared. -/
def Vec3.length_squared (v : Vec3) : ℝ := v.x * v.x + v.y * v.y + v.z * v.z

/-- Euclidean length. -/
def Vec3.length (v : Vec3) : ℝ := Real.sqrt v.length_squared

/-- glam is_normalized: the squared length is 1 within a small tolerance. -/
def Vec3.is_normalized (v : Vec3) : Prop := |v.length_squared - 1| ≤ 1e-4

theorem Vec3.add_def (a b : Vec3) : a + b = ⟨a.x + b.x, a.y + b.y, a.z + b.z⟩ := rfl

theorem Vec3.sub_def (a b : Vec3) : a - b = ⟨a.x - b.x, a.y - b.y, a.z - b.z⟩ := rfl

/-- An opaque Bevy entity identifier. -/
structure Entity where
  id : ℕ

/-- Bevy Transform, restricted to the translation that the claims are about. -/
structure Transform where
  translation : Vec3

/-- Rust f32::EPSILON, the machine epsilon of f32. -/
def f32_EPSILON : ℝ := 1 / 2 ^ 23

/-- The OrbitCamera component from the source. -/
structure OrbitCamera where
  target : Option Entity
  focus : Vec3
  distance : ℝ
  pitch : ℝ
  yaw : ℝ

def OrbitCamera.MIN_DISTANCE : ℝ := 5.0

def OrbitCamera.MAX_DISTANCE : ℝ := 100.0

/-- 89.9 degrees, in radians. -/
def OrbitCamera.MAX_PITCH : ℝ := 89.9 / 180.0 * Real.pi

def OrbitCamera.MIN_PITCH : ℝ := -OrbitCamera.MAX_PITCH

def OrbitCamera.MAX_YAW : ℝ := Real.pi

def OrbitCamera.MIN_YAW : ℝ := -OrbitCamera.MAX_YAW

/-- OrbitCamera::new: clamps distance, stores pitch and yaw verbatim,
focus defaults to zero. -/
def OrbitCamera.new (target : Option Entity) (distance pitch yaw : ℝ) : OrbitCamera :=
  { target := target
    focus := Vec3.default
    distance := (min (max (max distance f32_EPSILON) OrbitCamera.MIN_DISTANCE)
      OrbitCamera.MAX_DISTANCE)
    pitch := pitch
    yaw := yaw }

/-- OrbitCamera::set_focus: unconditional overwrite. -/
def OrbitCamera.set_focus (c : OrbitCamera) (focus : Vec3) : OrbitCamera :=
  { c with focus := focus }

/-- OrbitCamera::set_distance: distance.max(EPSILON).max(MIN_DISTANCE).min(MAX_DISTANCE). -/
def OrbitCamera.set_distance (c : OrbitCamera) (distance : ℝ) : OrbitCamera :=
  { c with distance := (min (max (max distance f32_EPSILON) OrbitCamera.MIN_DISTANCE)
      OrbitCamera.MAX_DISTANCE) }

/-- OrbitCamera::add_distance. -/
def OrbitCamera.add_distance (c : OrbitCamera) (distance : ℝ) : OrbitCamera :=
  c.set_distance (c.distance + distance)

/-- OrbitCamera::set_pitch: pitch.max(MIN_PITCH).min(MAX_PITCH). -/
def OrbitCamera.set_pitch (c : OrbitCamera) (pitch : ℝ) : OrbitCamera :=
  { c with pitch := min (max pitch OrbitCamera.MIN_PITCH) OrbitCamera.MAX_PITCH }

/-- OrbitCamera::add_pitch. -/
def OrbitCamera.add_pitch (c : OrbitCamera) (pitch : ℝ) : OrbitCamera :=
  c.set_pitch (c.pitch + pitch)

/-- Measure bounding the number of reflections OrbitCamera::wrap performs:
how many range widths separate num from the range on either side. -/
def wrap_measure (num mn mx : ℝ) : ℕ :=
  (⌈(mn - num) / (mx - mn)⌉).toNat + (⌈(num - mx) / (mx - mn)⌉).toNat

theorem wrap_measure_below {num mn mx : ℝ} (h : mn < mx) (hn : num < mn) :
    wrap_measure (mx - (mn - num)) mn mx + 1 = wrap_measure num mn mx := by
  have hw : (0 : ℝ) < mx - mn := sub_pos.mpr h
  have hA1 : 1 ≤ ⌈(mn - num) / (mx - mn)⌉ :=
    Int.ceil_pos.mpr (div_pos (by linarith) hw)
  have e1 : (mn - (mx - (mn - num))) / (mx - mn)
      = (mn - num) / (mx - mn) - 1 := by
    rw [show mn - (mx - (mn - num)) = (mn - num) - (mx - mn) from by ring,
      sub_div, div_self (ne_of_gt hw)]
  have c1 : ⌈(mn - (mx - (mn - num))) / (mx - mn)⌉
      = ⌈(mn - num) / (mx - mn)⌉ - 1 := by
    rw [e1, show ((mn - num) / (mx - mn) - 1 : ℝ)
      = (mn - num) / (mx - mn) - ((1 : ℤ) : ℝ) from by push_cast; ring,
      Int.ceil_sub_int]
  have c2 : ⌈(mx - (mn - num) - mx) / (mx - mn)⌉ ≤ 0 :=
    Int.ceil_le.mpr (by push_cast; nlinarith [div_neg_of_neg_of_pos (show (mx - (mn - num) - mx : ℝ) < 0 from by linarith) hw])
  have c3 : ⌈(num - mx) / (mx - mn)⌉ ≤ 0 :=
    Int.ceil_le.mpr (by push_cast; nlinarith [div_neg_of_neg_of_pos (show (num - mx : ℝ) < 0 from by linarith) hw])
  unfold wrap_measure
  omega

theorem wrap_measure_above {num mn mx : ℝ} (h : mn < mx) (hn : num > mx) :
    wrap_measure (mn - (mx - num)) mn mx + 1 = wrap_measure num mn mx := by
  have hw : (0 : ℝ) < mx - mn := sub_pos.mpr h
  have hA1 : 1 ≤ ⌈(num - mx) / (mx - mn)⌉ :=
    Int.ceil_pos.mpr (div_pos (by linarith) hw)
  have e1 : (mn - (mx - num) - mx) / (mx - mn)
      = (num - mx) / (mx - mn) - 1 := by
    rw [show mn - (mx - num) - mx = (num - mx) - (mx - mn) from by ring,
      sub_div, div_self (ne_of_gt hw)]
  have c1 : ⌈(mn - (mx - num) - mx) / (mx - mn)⌉
      = ⌈(num - mx) / (mx - mn)⌉ - 1 := by
    rw [e1, show ((num - mx) / (mx - mn) - 1 : ℝ)
      = (num - mx) / (mx - mn) - ((1 : ℤ) : ℝ) from by push_cast; ring,
      Int.ceil_sub_int]
  have c2 : ⌈(mn - (mn - (mx - num))) / (mx - mn)⌉ ≤ 0 :=
    Int.ceil_le.mpr (by push_cast; nlinarith [div_neg_of_neg_of_pos (show (mn - (mn - (mx - num)) : ℝ) < 0 from by linarith) hw])
  have c3 : ⌈(mn - num) / (mx - mn)⌉ ≤ 0 :=
    Int.ceil_le.mpr (by push_cast; nlinarith [div_neg_of_neg_of_pos (show (mn - num : ℝ) < 0 from by linarith) hw])
  unfold wrap_measure
  omega

/-- OrbitCamera::wrap: reflect num into the range until it lies inside.
The source recursion only terminates when the range is nonempty, which
the single call site (set_yaw) guarantees; we carry that as a hypothesis. -/
def OrbitCamera.wrap (num mn mx : ℝ) (h : mn < mx) : ℝ :=
  if num < mn then
    OrbitCamera.wrap (mx - (mn - num)) mn mx h
  else if num > mx then
    OrbitCamera.wrap (mn - (mx - num)) mn mx h
  else
    num
termination_by wrap_measure num mn mx
decreasing_by
  · have := wrap_measure_below h (by assumption)
    omega
  · have := wrap_measure_above h (by assumption)
    omega

theorem OrbitCamera.min_yaw_lt_max_yaw : OrbitCamera.MIN_YAW < OrbitCamera.MAX_YAW := by
  unfold OrbitCamera.MIN_YAW OrbitCamera.MAX_YAW
  linarith [Real.pi_pos]

/-- OrbitCamera::set_yaw: wrap into the yaw range. -/
def OrbitCamera.set_yaw (c : OrbitCamera) (yaw : ℝ) : OrbitCamera :=
  { c with yaw := (OrbitCamera.wrap yaw OrbitCamera.MIN_YAW OrbitCamera.MAX_YAW
      OrbitCamera.min_yaw_lt_max_yaw) }

/-- OrbitCamera::add_yaw. -/
def OrbitCamera.add_yaw (c : OrbitCamera) (yaw : ℝ) : OrbitCamera :=
  c.set_yaw (c.yaw + yaw)

/-- OrbitCamera::calculate_relative_position. The debug assert that the
direction is normalized is modelled separately (see the unit-norm theorem);
when it passes, the function returns the scaled direction. -/
def OrbitCamera.calculate_relative_position (pitch yaw distance : ℝ) : Vec3 :=
  (Vec3.mk (Real.sin yaw * Real.cos pitch) (Real.sin pitch)
    (Real.cos yaw * Real.cos pitch)).scale distance

/-- OrbitCamera::position: pure, reads the state and returns a point. -/
def OrbitCamera.position (c : OrbitCamera) : Vec3 :=
  c.focus + OrbitCamera.calculate_relative_position c.pitch c.yaw c.distance

/-- The unscaled direction vector built inside calculate_relative_position. -/
def direction_vector (pitch yaw : ℝ) : Vec3 :=
  Vec3.mk (Real.sin yaw * Real.cos pitch) (Real.sin pitch)
    (Real.cos yaw * Real.cos pitch)

/-- One frame of the update_camera system for a single camera: if the
target handle is present and the target query resolves it to a transform,
overwrite focus with its translation, otherwise leave the camera alone. -/
def update_camera (target_query : Entity → Option Transform) (c : OrbitCamera) :
    OrbitCamera :=
  match c.target with
  | some target_entity =>
    match target_query target_entity with
    | some target_transform => { c with focus := target_transform.translation }
    | none => c
  | none => c

/-- update_camera over the whole camera query. -/
def update_cameras (target_query : Entity → Option Transform)
    (cs : List OrbitCamera) : List OrbitCamera :=
  cs.map (update_camera target_query)

/-- One frame of the move_camera system for a single camera entity: write
position() into the camera transform translation (the look_at orientation
write is outside the modelled state). -/
def move_camera (p : OrbitCamera × Transform) : OrbitCamera × Transform :=
  (p.1, { translation := p.1.position })

/-- The per-frame pipeline for one camera entity, in the order the claims
assume: update_camera first, then move_camera. -/
def camera_frame (target_query : Entity → Option Transform)
    (p : OrbitCamera × Transform) : OrbitCamera × Transform :=
  move_camera (update_camera target_query p.1, p.2)

end

noncomputable section

theorem OrbitCamera.wrap_of_lt {num mn mx : ℝ} (h : mn < mx) (hn : num < mn) :
    OrbitCamera.wrap num mn mx h = OrbitCamera.wrap (mx - (mn - num)) mn mx h := by
  rw [OrbitCamera.wrap]
  simp [hn]

theorem OrbitCamera.wrap_of_gt {num mn mx : ℝ} (h : mn < mx) (hn : num > mx) :
    OrbitCamera.wrap num mn mx h = OrbitCamera.wrap (mn - (mx - num)) mn mx h := by
  rw [OrbitCamera.wrap]
  have hn2 : ¬ num < mn := by linarith
  simp [hn, hn2]

theorem OrbitCamera.wrap_of_mem {num mn mx : ℝ} (h : mn < mx) (h1 : mn ≤ num)
    (h2 : num ≤ mx) : OrbitCamera.wrap num mn mx h = num := by
  rw [OrbitCamera.wrap]
  simp [not_lt.mpr h1, not_lt.mpr h2]

theorem wrap_measure_zero {num mn mx : ℝ} (h : mn < mx)
    (h0 : wrap_measure num mn mx = 0) : mn ≤ num ∧ num ≤ mx := by
  have hw : (0 : ℝ) < mx - mn := sub_pos.mpr h
  unfold wrap_measure at h0
  have t1 : ⌈(mn - num) / (mx - mn)⌉ ≤ 0 := by omega
  have t2 : ⌈(num - mx) / (mx - mn)⌉ ≤ 0 := by omega
  have u1 : (mn - num) / (mx - mn) ≤ 0 :=
    le_trans (Int.le_ceil _) (by exact_mod_cast t1)
  have u2 : (num - mx) / (mx - mn) ≤ 0 :=
    le_trans (Int.le_ceil _) (by exact_mod_cast t2)
  have v1 : mn - num ≤ 0 := by
    by_contra hc
    push_neg at hc
    have : 0 < (mn - num) / (mx - mn) := div_pos hc hw
    linarith
  have v2 : num - mx ≤ 0 := by
    by_contra hc
    push_neg at hc
    have : 0 < (num - mx) / (mx - mn) := div_pos hc hw
    linarith
  exact ⟨by linarith, by linarith⟩

theorem wrap_measure_of_mem {num mn mx : ℝ} (h : mn < mx) (h1 : mn ≤ num)
    (h2 : num ≤ mx) : wrap_measure num mn mx = 0 := by
  have hw : (0 : ℝ) < mx - mn := sub_pos.mpr h
  have u1 : (mn - num) / (mx - mn) ≤ 0 := by
    by_contra hc
    push_neg at hc
    have := (div_pos_iff.mp hc)
    rcases this with ⟨ha, _⟩ | ⟨_, hb⟩
    · linarith
    · linarith
  have u2 : (num - mx) / (mx - mn) ≤ 0 := by
    by_contra hc
    push_neg at hc
    have := (div_pos_iff.mp hc)
    rcases this with ⟨ha, _⟩ | ⟨_, hb⟩
    · linarith
    · linarith
  have t1 : ⌈(mn - num) / (mx - mn)⌉ ≤ 0 := Int.ceil_le.mpr (by push_cast; exact u1)
  have t2 : ⌈(num - mx) / (mx - mn)⌉ ≤ 0 := Int.ceil_le.mpr (by push_cast; exact u2)
  unfold wrap_measure
  omega

theorem OrbitCamera.wrap_mem_aux {mn mx : ℝ} (h : mn < mx) :
    ∀ (n : ℕ) (num : ℝ), wrap_measure num mn mx ≤ n →
      mn ≤ OrbitCamera.wrap num mn mx h ∧ OrbitCamera.wrap num mn mx h ≤ mx := by
  intro n
  induction n with
  | zero =>
    intro num hle
    obtain ⟨h1, h2⟩ := wrap_measure_zero h (Nat.le_zero.mp hle)
    rw [OrbitCamera.wrap_of_mem h h1 h2]
    exact ⟨h1, h2⟩
  | succ n ih =>
    intro num hle
    by_cases hlt : num < mn
    · rw [OrbitCamera.wrap_of_lt h hlt]
      apply ih
      have := wrap_measure_below h hlt
      omega
    · by_cases hgt : num > mx
      · rw [OrbitCamera.wrap_of_gt h hgt]
        apply ih
        have := wrap_measure_above h hgt
        omega
      · push_neg at hlt hgt
        rw [OrbitCamera.wrap_of_mem h hlt hgt]
        exact ⟨hlt, hgt⟩

theorem OrbitCamera.wrap_mem {num mn mx : ℝ} (h : mn < mx) :
    mn ≤ OrbitCamera.wrap num mn mx h ∧ OrbitCamera.wrap num mn mx h ≤ mx :=
  OrbitCamera.wrap_mem_aux h (wrap_measure num mn mx) num le_rfl

/-- One reflection of the wrap recursion, as a plain step function. -/
def reflect_step (mn mx num : ℝ) : ℝ :=
  if num < mn then mx - (mn - num) else if num > mx then mn - (mx - num) else num

theorem reflect_iterate_aux {mn mx : ℝ} (h : mn < mx) :
    ∀ (n : ℕ) (num : ℝ), wrap_measure num mn mx ≤ n →
      (reflect_step mn mx)^[n] num = OrbitCamera.wrap num mn mx h := by
  intro n
  induction n with
  | zero =>
    intro num hle
    obtain ⟨h1, h2⟩ := wrap_measure_zero h (Nat.le_zero.mp hle)
    rw [Function.iterate_zero_apply, OrbitCamera.wrap_of_mem h h1 h2]
  | succ n ih =>
    intro num hle
    rw [Function.iterate_succ_apply]
    by_cases hlt : num < mn
    · have hstep : reflect_step mn mx num = mx - (mn - num) := by
        unfold reflect_step
        simp [hlt]
      rw [hstep, OrbitCamera.wrap_of_lt h hlt]
      apply ih
      have := wrap_measure_below h hlt
      omega
    · by_cases hgt : num > mx
      · have hstep : reflect_step mn mx num = mn - (mx - num) := by
          unfold reflect_step
          simp [hlt, hgt]
        rw [hstep, OrbitCamera.wrap_of_gt h hgt]
        apply ih
        have := wrap_measure_above h hgt
        omega
      · push_neg at hlt hgt
        have hstep : reflect_step mn mx num = num := by
          unfold reflect_step
          simp [not_lt.mpr hlt, not_lt.mpr hgt]
        rw [hstep, OrbitCamera.wrap_of_mem h hlt hgt]
        have h0 : wrap_measure num mn mx = 0 := wrap_measure_of_mem h hlt hgt
        have := ih num (by omega)
        rw [this, OrbitCamera.wrap_of_mem h hlt hgt]

/-- Iterating single reflections wrap_measure-many times reaches the wrapped
value: the recursion terminates within that bounded number of reflections. -/
theorem reflect_iterate {num mn mx : ℝ} (h : mn < mx) :
    (reflect_step mn mx)^[wrap_measure num mn mx] num = OrbitCamera.wrap num mn mx h :=
  reflect_iterate_aux h (wrap_measure num mn mx) num le_rfl

end

noncomputable section

theorem OrbitCamera.max_yaw_eq : OrbitCamera.MAX_YAW = Real.pi := rfl

theorem OrbitCamera.min_yaw_eq : OrbitCamera.MIN_YAW = -Real.pi := rfl

theorem OrbitCamera.max_pitch_pos : 0 < OrbitCamera.MAX_PITCH := by
  unfold OrbitCamera.MAX_PITCH
  positivity

/-- The distance written by set_distance always lies in the allowed range. -/
theorem set_distance_mem (c : OrbitCamera) (v : ℝ) :
    OrbitCamera.MIN_DISTANCE ≤ (c.set_distance v).distance ∧
      (c.set_distance v).distance ≤ OrbitCamera.MAX_DISTANCE := by
  constructor
  · exact le_min (le_max_right _ _)
      (by norm_num [OrbitCamera.MIN_DISTANCE, OrbitCamera.MAX_DISTANCE])
  · exact min_le_right _ _

/-- One zoom call of a call sequence against the distance API. -/
inductive DistOp where
  | set (value : ℝ)
  | add (delta : ℝ)

/-- Apply one set_distance or add_distance call. -/
def applyDistOp (c : OrbitCamera) : DistOp → OrbitCamera
  | DistOp.set v => c.set_distance v
  | DistOp.add v => c.add_distance v

/-- Apply a sequence of calls in order. -/
def applyDistOps (c : OrbitCamera) (ops : List DistOp) : OrbitCamera :=
  ops.foldl applyDistOp c

theorem applyDistOp_mem (c : OrbitCamera) (op : DistOp) :
    OrbitCamera.MIN_DISTANCE ≤ (applyDistOp c op).distance ∧
      (applyDistOp c op).distance ≤ OrbitCamera.MAX_DISTANCE := by
  cases op with
  | set v => exact set_distance_mem c v
  | add v => exact set_distance_mem c (c.distance + v)

theorem applyDistOps_cons_mem (c : OrbitCamera) (op : DistOp) (rest : List DistOp) :
    OrbitCamera.MIN_DISTANCE ≤ (applyDistOps c (op :: rest)).distance ∧
      (applyDistOps c (op :: rest)).distance ≤ OrbitCamera.MAX_DISTANCE := by
  induction rest generalizing c op with
  | nil => exact applyDistOp_mem c op
  | cons op2 rest2 ih => exact ih (applyDistOp c op) op2

theorem applyDistOps_mem (c : OrbitCamera) (ops : List DistOp) (h : ops ≠ []) :
    OrbitCamera.MIN_DISTANCE ≤ (applyDistOps c ops).distance ∧
      (applyDistOps c ops).distance ≤ OrbitCamera.MAX_DISTANCE := by
  cases ops with
  | nil => exact absurd rfl h
  | cons op rest => exact applyDistOps_cons_mem c op rest

/-- Positions of two cameras agreeing on distance, pitch and yaw differ by
exactly the difference of their focus points. -/
theorem position_sub_position (c1 c2 : OrbitCamera) (hd : c1.distance = c2.distance)
    (hp : c1.pitch = c2.pitch) (hy : c1.yaw = c2.yaw) :
    c1.position - c2.position = c1.focus - c2.focus := by
  simp only [OrbitCamera.position, OrbitCamera.calculate_relative_position,
    Vec3.scale, Vec3.add_def, Vec3.sub_def, Vec3.mk.injEq, hd, hp, hy]
  exact ⟨by ring, by ring, by ring⟩

/-- C1: position() returns focus plus the vector (sin yaw * cos pitch,
sin pitch, cos yaw * cos pitch) scaled by distance; position is a pure
function of the state, so the state is not mutated; in particular with
focus = (0,0,0), distance = 10, pitch = 0, yaw = 0 it returns (0,0,10). -/
theorem position_formula :
    (∀ c : OrbitCamera,
      c.position = ⟨c.focus.x + Real.sin c.yaw * Real.cos c.pitch * c.distance,
        c.focus.y + Real.sin c.pitch * c.distance,
        c.focus.z + Real.cos c.yaw * Real.cos c.pitch * c.distance⟩)
    ∧ OrbitCamera.position ⟨none, ⟨0, 0, 0⟩, 10, 0, 0⟩ = ⟨0, 0, 10⟩ := by
  constructor
  · intro c
    rfl
  · simp only [OrbitCamera.position, OrbitCamera.calculate_relative_position,
      Vec3.scale, Vec3.add_def, Vec3.mk.injEq, Real.sin_zero, Real.cos_zero]
    norm_num

/-- C2: the state built by new satisfies MIN_DISTANCE <= distance <=
MAX_DISTANCE, and from any finite initial state, after every call of any
nonempty sequence of set_distance/add_distance calls the stored distance
stays in that range (every prefix of a sequence is again a sequence, so
this covers the state after each call). -/
theorem distance_range_invariant (target : Option Entity) (d p y : ℝ)
    (c : OrbitCamera) (ops : List DistOp) (hops : ops ≠ []) :
    (OrbitCamera.MIN_DISTANCE ≤ (OrbitCamera.new target d p y).distance
      ∧ (OrbitCamera.new target d p y).distance ≤ OrbitCamera.MAX_DISTANCE)
    ∧ (OrbitCamera.MIN_DISTANCE ≤ (applyDistOps c ops).distance
      ∧ (applyDistOps c ops).distance ≤ OrbitCamera.MAX_DISTANCE) := by
  refine ⟨?_, applyDistOps_mem c ops hops⟩
  exact set_distance_mem ⟨target, Vec3.default, 0, p, y⟩ d

/-- Witness for the distance range invariant at a concrete state and call
sequence. -/
theorem distance_range_invariant_witness :
    (OrbitCamera.MIN_DISTANCE ≤ (OrbitCamera.new none 0 0 0).distance
      ∧ (OrbitCamera.new none 0 0 0).distance ≤ OrbitCamera.MAX_DISTANCE)
    ∧ (OrbitCamera.MIN_DISTANCE
        ≤ (applyDistOps ⟨none, ⟨0, 0, 0⟩, 7, 0, 0⟩ [DistOp.set 200]).distance
      ∧ (applyDistOps ⟨none, ⟨0, 0, 0⟩, 7, 0, 0⟩ [DistOp.set 200]).distance
        ≤ OrbitCamera.MAX_DISTANCE) :=
  distance_range_invariant none 0 0 0 ⟨none, ⟨0, 0, 0⟩, 7, 0, 0⟩ [DistOp.set 200]
    (List.cons_ne_nil _ _)

end

noncomputable section

/-- C3: set_yaw stores wrap of its argument over [MIN_YAW, MAX_YAW]; wrap
reflects values below MIN_YAW to wrap (MAX_YAW - (MIN_YAW - v)), values
above MAX_YAW to wrap (MIN_YAW - (MAX_YAW - v)), and returns in-range
values unchanged; set_yaw 0 yields 0, set_yaw (pi + e) for 0 < e < 2 pi
yields exactly -pi + e, and set_yaw (3 pi) yields pi, which lies in
[-pi, pi] and differs from 3 pi by the full turn 2 pi. -/
theorem set_yaw_wrap_spec (c : OrbitCamera) (v ε : ℝ) (hε0 : 0 < ε)
    (hε2 : ε < 2 * Real.pi) :
    ((c.set_yaw v).yaw = OrbitCamera.wrap v OrbitCamera.MIN_YAW OrbitCamera.MAX_YAW
        OrbitCamera.min_yaw_lt_max_yaw)
    ∧ (v < OrbitCamera.MIN_YAW →
        OrbitCamera.wrap v OrbitCamera.MIN_YAW OrbitCamera.MAX_YAW
            OrbitCamera.min_yaw_lt_max_yaw
          = OrbitCamera.wrap (OrbitCamera.MAX_YAW - (OrbitCamera.MIN_YAW - v))
              OrbitCamera.MIN_YAW OrbitCamera.MAX_YAW OrbitCamera.min_yaw_lt_max_yaw)
    ∧ (v > OrbitCamera.MAX_YAW →
        OrbitCamera.wrap v OrbitCamera.MIN_YAW OrbitCamera.MAX_YAW
            OrbitCamera.min_yaw_lt_max_yaw
          = OrbitCamera.wrap (OrbitCamera.MIN_YAW - (OrbitCamera.MAX_YAW - v))
              OrbitCamera.MIN_YAW OrbitCamera.MAX_YAW OrbitCamera.min_yaw_lt_max_yaw)
    ∧ (OrbitCamera.MIN_YAW ≤ v → v ≤ OrbitCamera.MAX_YAW →
        OrbitCamera.wrap v OrbitCamera.MIN_YAW OrbitCamera.MAX_YAW
          OrbitCamera.min_yaw_lt_max_yaw = v)
    ∧ (c.set_yaw 0).yaw = 0
    ∧ (c.set_yaw (Real.pi + ε)).yaw = -Real.pi + ε
    ∧ ((c.set_yaw (3 * Real.pi)).yaw = Real.pi
        ∧ OrbitCamera.MIN_YAW ≤ Real.pi ∧ Real.pi ≤ OrbitCamera.MAX_YAW
        ∧ 3 * Real.pi - Real.pi = 2 * Real.pi) := by
  have hpi := Real.pi_pos
  refine ⟨rfl,
    fun hv => OrbitCamera.wrap_of_lt OrbitCamera.min_yaw_lt_max_yaw hv,
    fun hv => OrbitCamera.wrap_of_gt OrbitCamera.min_yaw_lt_max_yaw hv,
    fun h1 h2 => OrbitCamera.wrap_of_mem OrbitCamera.min_yaw_lt_max_yaw h1 h2,
    ?_, ?_, ?_, ?_, ?_, ?_⟩
  · exact OrbitCamera.wrap_of_mem OrbitCamera.min_yaw_lt_max_yaw
      (by rw [OrbitCamera.min_yaw_eq]; linarith)
      (by rw [OrbitCamera.max_yaw_eq]; linarith)
  · have hgt : Real.pi + ε > OrbitCamera.MAX_YAW := by
      rw [OrbitCamera.max_yaw_eq]
      linarith
    have e : OrbitCamera.MIN_YAW - (OrbitCamera.MAX_YAW - (Real.pi + ε))
        = -Real.pi + ε := by
      rw [OrbitCamera.min_yaw_eq, OrbitCamera.max_yaw_eq]
      ring
    have step : (c.set_yaw (Real.pi + ε)).yaw
        = OrbitCamera.wrap (Real.pi + ε) OrbitCamera.MIN_YAW OrbitCamera.MAX_YAW
            OrbitCamera.min_yaw_lt_max_yaw := rfl
    rw [step, OrbitCamera.wrap_of_gt OrbitCamera.min_yaw_lt_max_yaw hgt, e,
      OrbitCamera.wrap_of_mem OrbitCamera.min_yaw_lt_max_yaw
        (by rw [OrbitCamera.min_yaw_eq]; linarith)
        (by rw [OrbitCamera.max_yaw_eq]; linarith)]
  · have hgt : 3 * Real.pi > OrbitCamera.MAX_YAW := by
      rw [OrbitCamera.max_yaw_eq]
      linarith
    have e : OrbitCamera.MIN_YAW - (OrbitCamera.MAX_YAW - 3 * Real.pi) = Real.pi := by
      rw [OrbitCamera.min_yaw_eq, OrbitCamera.max_yaw_eq]
      ring
    have step : (c.set_yaw (3 * Real.pi)).yaw
        = OrbitCamera.wrap (3 * Real.pi) OrbitCamera.MIN_YAW OrbitCamera.MAX_YAW
            OrbitCamera.min_yaw_lt_max_yaw := rfl
    rw [step, OrbitCamera.wrap_of_gt OrbitCamera.min_yaw_lt_max_yaw hgt, e,
      OrbitCamera.wrap_of_mem OrbitCamera.min_yaw_lt_max_yaw
        (by rw [OrbitCamera.min_yaw_eq]; linarith)
        (by rw [OrbitCamera.max_yaw_eq])]
  · rw [OrbitCamera.min_yaw_eq]
    linarith
  · rw [OrbitCamera.max_yaw_eq]
  · ring

/-- Witness for the yaw wrap specification at a concrete camera, v = 0 and
e = pi. -/
theorem set_yaw_wrap_spec_witness :
    ((OrbitCamera.set_yaw ⟨none, ⟨0, 0, 0⟩, 10, 0, 0⟩ 0).yaw
        = OrbitCamera.wrap 0 OrbitCamera.MIN_YAW OrbitCamera.MAX_YAW
            OrbitCamera.min_yaw_lt_max_yaw)
    ∧ ((0 : ℝ) < OrbitCamera.MIN_YAW →
        OrbitCamera.wrap 0 OrbitCamera.MIN_YAW OrbitCamera.MAX_YAW
            OrbitCamera.min_yaw_lt_max_yaw
          = OrbitCamera.wrap (OrbitCamera.MAX_YAW - (OrbitCamera.MIN_YAW - 0))
              OrbitCamera.MIN_YAW OrbitCamera.MAX_YAW OrbitCamera.min_yaw_lt_max_yaw)
    ∧ ((0 : ℝ) > OrbitCamera.MAX_YAW →
        OrbitCamera.wrap 0 OrbitCamera.MIN_YAW OrbitCamera.MAX_YAW
            OrbitCamera.min_yaw_lt_max_yaw
          = OrbitCamera.wrap (OrbitCamera.MIN_YAW - (OrbitCamera.MAX_YAW - 0))
              OrbitCamera.MIN_YAW OrbitCamera.MAX_YAW OrbitCamera.min_yaw_lt_max_yaw)
    ∧ (OrbitCamera.MIN_YAW ≤ (0 : ℝ) → (0 : ℝ) ≤ OrbitCamera.MAX_YAW →
        OrbitCamera.wrap 0 OrbitCamera.MIN_YAW OrbitCamera.MAX_YAW
          OrbitCamera.min_yaw_lt_max_yaw = 0)
    ∧ (OrbitCamera.set_yaw ⟨none, ⟨0, 0, 0⟩, 10, 0, 0⟩ 0).yaw = 0
    ∧ (OrbitCamera.set_yaw ⟨none, ⟨0, 0, 0⟩, 10, 0, 0⟩ (Real.pi + Real.pi)).yaw
        = -Real.pi + Real.pi
    ∧ ((OrbitCamera.set_yaw ⟨none, ⟨0, 0, 0⟩, 10, 0, 0⟩ (3 * Real.pi)).yaw = Real.pi
        ∧ OrbitCamera.MIN_YAW ≤ Real.pi ∧ Real.pi ≤ OrbitCamera.MAX_YAW
        ∧ 3 * Real.pi - Real.pi = 2 * Real.pi) :=
  set_yaw_wrap_spec ⟨none, ⟨0, 0, 0⟩, 10, 0, 0⟩ 0 Real.pi Real.pi_pos
    (by linarith [Real.pi_pos])

/-- C4: wrap is total (it is a Lean function defined by well-founded
recursion) and reaches its result within wrap_measure single reflections:
iterating the one-step reflection that many times already yields the
wrapped value, which lies in [mn, mx]; in particular set_yaw 1000 leaves
yaw inside [MIN_YAW, MAX_YAW]. -/
theorem wrap_terminates_in_range (mn mx num : ℝ) (h : mn < mx) (c : OrbitCamera) :
    (mn ≤ OrbitCamera.wrap num mn mx h ∧ OrbitCamera.wrap num mn mx h ≤ mx)
    ∧ (reflect_step mn mx)^[wrap_measure num mn mx] num
        = OrbitCamera.wrap num mn mx h
    ∧ (OrbitCamera.MIN_YAW ≤ (c.set_yaw 1000).yaw
        ∧ (c.set_yaw 1000).yaw ≤ OrbitCamera.MAX_YAW) :=
  ⟨OrbitCamera.wrap_mem h, reflect_iterate h,
    OrbitCamera.wrap_mem OrbitCamera.min_yaw_lt_max_yaw⟩

/-- Witness for wrap termination and range at mn = -1, mx = 1, num = 5. -/
theorem wrap_terminates_in_range_witness :
    ((-1 : ℝ) ≤ OrbitCamera.wrap 5 (-1) 1 (by norm_num)
      ∧ OrbitCamera.wrap 5 (-1) 1 (by norm_num) ≤ 1)
    ∧ (reflect_step (-1) 1)^[wrap_measure 5 (-1) 1] 5
        = OrbitCamera.wrap 5 (-1) 1 (by norm_num)
    ∧ (OrbitCamera.MIN_YAW
        ≤ (OrbitCamera.set_yaw ⟨none, ⟨0, 0, 0⟩, 10, 0, 0⟩ 1000).yaw
      ∧ (OrbitCamera.set_yaw ⟨none, ⟨0, 0, 0⟩, 10, 0, 0⟩ 1000).yaw
        ≤ OrbitCamera.MAX_YAW) :=
  wrap_terminates_in_range (-1) 1 5 (by norm_num) ⟨none, ⟨0, 0, 0⟩, 10, 0, 0⟩

end

noncomputable section

/-- C5: for every pitch in [MIN_PITCH, MAX_PITCH] and yaw in
[MIN_YAW, MAX_YAW], the direction vector built inside
calculate_relative_position has squared length exactly 1 and Euclidean
length 1; hence it is within every positive tolerance of a unit vector
(in particular 1e-5 and the is_normalized tolerance), so the assert in
calculate_relative_position never fires on those states. -/
theorem direction_unit_norm (pitch yaw : ℝ)
    (hp1 : OrbitCamera.MIN_PITCH ≤ pitch) (hp2 : pitch ≤ OrbitCamera.MAX_PITCH)
    (hy1 : OrbitCamera.MIN_YAW ≤ yaw) (hy2 : yaw ≤ OrbitCamera.MAX_YAW) :
    (direction_vector pitch yaw).length_squared = 1
    ∧ (direction_vector pitch yaw).length = 1
    ∧ (direction_vector pitch yaw).is_normalized
    ∧ |(direction_vector pitch yaw).length_squared - 1| ≤ 1e-5 := by
  have h1 : (direction_vector pitch yaw).length_squared = 1 := by
    have s1 := Real.sin_sq_add_cos_sq yaw
    have s2 := Real.sin_sq_add_cos_sq pitch
    unfold direction_vector Vec3.length_squared
    dsimp only
    linear_combination Real.cos pitch ^ 2 * s1 + s2
  refine ⟨h1, ?_, ?_, ?_⟩
  · unfold Vec3.length
    rw [h1, Real.sqrt_one]
  · unfold Vec3.is_normalized
    rw [h1]
    norm_num
  · rw [h1]
    norm_num

/-- Witness for the unit-norm property at pitch = 0, yaw = 0. -/
theorem direction_unit_norm_witness :
    (direction_vector 0 0).length_squared = 1
    ∧ (direction_vector 0 0).length = 1
    ∧ (direction_vector 0 0).is_normalized
    ∧ |(direction_vector 0 0).length_squared - 1| ≤ 1e-5 :=
  direction_unit_norm 0 0
    (by rw [OrbitCamera.MIN_PITCH]; linarith [OrbitCamera.max_pitch_pos])
    (le_of_lt OrbitCamera.max_pitch_pos)
    (by rw [OrbitCamera.min_yaw_eq]; linarith [Real.pi_pos])
    (by rw [OrbitCamera.max_yaw_eq]; linarith [Real.pi_pos])

/-- C6: running update_camera then move_camera in one frame overwrites
focus with the resolved target translation, leaves distance, pitch and yaw
untouched, writes position() into the camera transform, and across two
frames in which only the target moved, the derived camera position shifts
by exactly the target displacement. -/
theorem focus_tracking_frame (q1 q2 : Entity → Option Transform)
    (c : OrbitCamera) (t : Transform) (e : Entity) (p1 p2 : Vec3)
    (htgt : c.target = some e) (h1 : q1 e = some ⟨p1⟩) (h2 : q2 e = some ⟨p2⟩) :
    (camera_frame q1 (c, t)).1.focus = p1
    ∧ (camera_frame q2 (camera_frame q1 (c, t))).1.focus = p2
    ∧ (camera_frame q1 (c, t)).1.distance = c.distance
    ∧ (camera_frame q1 (c, t)).1.pitch = c.pitch
    ∧ (camera_frame q1 (c, t)).1.yaw = c.yaw
    ∧ (camera_frame q2 (camera_frame q1 (c, t))).1.distance = c.distance
    ∧ (camera_frame q2 (camera_frame q1 (c, t))).1.pitch = c.pitch
    ∧ (camera_frame q2 (camera_frame q1 (c, t))).1.yaw = c.yaw
    ∧ (camera_frame q1 (c, t)).2.translation = (camera_frame q1 (c, t)).1.position
    ∧ (camera_frame q2 (camera_frame q1 (c, t))).2.translation
        = (camera_frame q2 (camera_frame q1 (c, t))).1.position
    ∧ (camera_frame q2 (camera_frame q1 (c, t))).2.translation
        - (camera_frame q1 (c, t)).2.translation = p2 - p1 := by
  have u1 : update_camera q1 c = { c with focus := p1 } := by
    simp [update_camera, htgt, h1]
  have u2 : update_camera q2 ({ c with focus := p1 } : OrbitCamera)
      = { c with focus := p2 } := by
    simp [update_camera, htgt, h2]
  have f1 : camera_frame q1 (c, t)
      = ({ c with focus := p1 },
         ⟨({ c with focus := p1 } : OrbitCamera).position⟩) := by
    simp [camera_frame, move_camera, u1]
  have f2 : camera_frame q2 (camera_frame q1 (c, t))
      = ({ c with focus := p2 },
         ⟨({ c with focus := p2 } : OrbitCamera).position⟩) := by
    rw [f1]
    simp [camera_frame, move_camera, u2]
  rw [f2, f1]
  refine ⟨rfl, rfl, rfl, rfl, rfl, rfl, rfl, rfl, rfl, rfl, ?_⟩
  exact position_sub_position _ _ rfl rfl rfl

/-- Witness for focus tracking: a target moving from the origin to (5,0,0)
drags focus to (5,0,0) and shifts the camera position by (5,0,0). -/
theorem focus_tracking_frame_witness :
    (camera_frame (fun _ => some ⟨⟨0, 0, 0⟩⟩)
        (⟨some ⟨0⟩, ⟨0, 0, 0⟩, 10, 0, 0⟩, ⟨⟨0, 0, 0⟩⟩)).1.focus = ⟨0, 0, 0⟩
    ∧ (camera_frame (fun _ => some ⟨⟨5, 0, 0⟩⟩)
        (camera_frame (fun _ => some ⟨⟨0, 0, 0⟩⟩)
          (⟨some ⟨0⟩, ⟨0, 0, 0⟩, 10, 0, 0⟩, ⟨⟨0, 0, 0⟩⟩))).1.focus = ⟨5, 0, 0⟩
    ∧ (camera_frame (fun _ => some ⟨⟨0, 0, 0⟩⟩)
        (⟨some ⟨0⟩, ⟨0, 0, 0⟩, 10, 0, 0⟩, ⟨⟨0, 0, 0⟩⟩)).1.distance
        = (⟨some ⟨0⟩, ⟨0, 0, 0⟩, 10, 0, 0⟩ : OrbitCamera).distance
    ∧ (camera_frame (fun _ => some ⟨⟨0, 0, 0⟩⟩)
        (⟨some ⟨0⟩, ⟨0, 0, 0⟩, 10, 0, 0⟩, ⟨⟨0, 0, 0⟩⟩)).1.pitch
        = (⟨some ⟨0⟩, ⟨0, 0, 0⟩, 10, 0, 0⟩ : OrbitCamera).pitch
    ∧ (camera_frame (fun _ => some ⟨⟨0, 0, 0⟩⟩)
        (⟨some ⟨0⟩, ⟨0, 0, 0⟩, 10, 0, 0⟩, ⟨⟨0, 0, 0⟩⟩)).1.yaw
        = (⟨some ⟨0⟩, ⟨0, 0, 0⟩, 10, 0, 0⟩ : OrbitCamera).yaw
    ∧ (camera_frame (fun _ => some ⟨⟨5, 0, 0⟩⟩)
        (camera_frame (fun _ => some ⟨⟨0, 0, 0⟩⟩)
          (⟨some ⟨0⟩, ⟨0, 0, 0⟩, 10, 0, 0⟩, ⟨⟨0, 0, 0⟩⟩))).1.distance
        = (⟨some ⟨0⟩, ⟨0, 0, 0⟩, 10, 0, 0⟩ : OrbitCamera).distance
    ∧ (camera_frame (fun _ => some ⟨⟨5, 0, 0⟩⟩)
        (camera_frame (fun _ => some ⟨⟨0, 0, 0⟩⟩)
          (⟨some ⟨0⟩, ⟨0, 0, 0⟩, 10, 0, 0⟩, ⟨⟨0, 0, 0⟩⟩))).1.pitch
        = (⟨some ⟨0⟩, ⟨0, 0, 0⟩, 10, 0, 0⟩ : OrbitCamera).pitch
    ∧ (camera_frame (fun _ => some ⟨⟨5, 0, 0⟩⟩)
        (camera_frame (fun _ => some ⟨⟨0, 0, 0⟩⟩)
          (⟨some ⟨0⟩, ⟨0, 0, 0⟩, 10, 0, 0⟩, ⟨⟨0, 0, 0⟩⟩))).1.yaw
        = (⟨some ⟨0⟩, ⟨0, 0, 0⟩, 10, 0, 0⟩ : OrbitCamera).yaw
    ∧ (camera_frame (fun _ => some ⟨⟨0, 0, 0⟩⟩)
        (⟨some ⟨0⟩, ⟨0, 0, 0⟩, 10, 0, 0⟩, ⟨⟨0, 0, 0⟩⟩)).2.translation
        = (camera_frame (fun _ => some ⟨⟨0, 0, 0⟩⟩)
            (⟨some ⟨0⟩, ⟨0, 0, 0⟩, 10, 0, 0⟩, ⟨⟨0, 0, 0⟩⟩)).1.position
    ∧ (camera_frame (fun _ => some ⟨⟨5, 0, 0⟩⟩)
        (camera_frame (fun _ => some ⟨⟨0, 0, 0⟩⟩)
          (⟨some ⟨0⟩, ⟨0, 0, 0⟩, 10, 0, 0⟩, ⟨⟨0, 0, 0⟩⟩))).2.translation
        = (camera_frame (fun _ => some ⟨⟨5, 0, 0⟩⟩)
            (camera_frame (fun _ => some ⟨⟨0, 0, 0⟩⟩)
              (⟨some ⟨0⟩, ⟨0, 0, 0⟩, 10, 0, 0⟩, ⟨⟨0, 0, 0⟩⟩))).1.position
    ∧ (camera_frame (fun _ => some ⟨⟨5, 0, 0⟩⟩)
        (camera_frame (fun _ => some ⟨⟨0, 0, 0⟩⟩)
          (⟨some ⟨0⟩, ⟨0, 0, 0⟩, 10, 0, 0⟩, ⟨⟨0, 0, 0⟩⟩))).2.translation
        - (camera_frame (fun _ => some ⟨⟨0, 0, 0⟩⟩)
            (⟨some ⟨0⟩, ⟨0, 0, 0⟩, 10, 0, 0⟩, ⟨⟨0, 0, 0⟩⟩)).2.translation
        = (⟨5, 0, 0⟩ : Vec3) - ⟨0, 0, 0⟩ :=
  focus_tracking_frame (fun _ => some ⟨⟨0, 0, 0⟩⟩) (fun _ => some ⟨⟨5, 0, 0⟩⟩)
    ⟨some ⟨0⟩, ⟨0, 0, 0⟩, 10, 0, 0⟩ ⟨⟨0, 0, 0⟩⟩ ⟨0⟩ ⟨0, 0, 0⟩ ⟨5, 0, 0⟩ rfl rfl rfl

/-- C7: when the target reference of a camera does not resolve, the
per-frame update is the identity on that camera (focus in particular is
unchanged), the update is a total function (no error), and in a query with
other cameras only that camera is affected: the others are updated exactly
as they would be on their own. -/
theorem missing_target_keeps_focus (q : Entity → Option Transform)
    (c : OrbitCamera) (e : Entity) (pre post : List OrbitCamera)
    (htgt : c.target = some e) (hq : q e = none) :
    (update_camera q c).focus = c.focus
    ∧ update_camera q c = c
    ∧ update_cameras q (pre ++ c :: post)
        = update_cameras q pre ++ c :: update_cameras q post := by
  have hc : update_camera q c = c := by
    simp [update_camera, htgt, hq]
  refine ⟨by rw [hc], hc, ?_⟩
  simp [update_cameras, hc]

/-- Witness for missing-target resilience at a concrete camera whose target
query resolves nothing. -/
theorem missing_target_keeps_focus_witness :
    (update_camera (fun _ => none) ⟨some ⟨0⟩, ⟨1, 2, 3⟩, 7, 0, 0⟩).focus
        = (⟨some ⟨0⟩, ⟨1, 2, 3⟩, 7, 0, 0⟩ : OrbitCamera).focus
    ∧ update_camera (fun _ => none) ⟨some ⟨0⟩, ⟨1, 2, 3⟩, 7, 0, 0⟩
        = ⟨some ⟨0⟩, ⟨1, 2, 3⟩, 7, 0, 0⟩
    ∧ update_cameras (fun _ => none)
        ([⟨none, ⟨0, 0, 0⟩, 9, 0, 0⟩] ++ ⟨some ⟨0⟩, ⟨1, 2, 3⟩, 7, 0, 0⟩
          :: [⟨none, ⟨4, 4, 4⟩, 8, 0, 0⟩])
        = update_cameras (fun _ => none) [⟨none, ⟨0, 0, 0⟩, 9, 0, 0⟩]
          ++ ⟨some ⟨0⟩, ⟨1, 2, 3⟩, 7, 0, 0⟩
          :: update_cameras (fun _ => none) [⟨none, ⟨4, 4, 4⟩, 8, 0, 0⟩] :=
  missing_target_keeps_focus (fun _ => none) ⟨some ⟨0⟩, ⟨1, 2, 3⟩, 7, 0, 0⟩ ⟨0⟩
    [⟨none, ⟨0, 0, 0⟩, 9, 0, 0⟩] [⟨none, ⟨4, 4, 4⟩, 8, 0, 0⟩] rfl rfl

end

noncomputable section

/-- C8: new clamps its distance argument into
[max(EPSILON, MIN_DISTANCE), MAX_DISTANCE] but stores pitch and yaw
verbatim and initializes focus to zero; hence a camera with out-of-range
pitch (2 > MAX_PITCH) and yaw (10 > MAX_YAW) is constructible, and those
values persist through set_focus, set_distance and add_distance. -/
theorem new_clamps_distance_only (target : Option Entity) (d p y : ℝ) :
    ((OrbitCamera.new target d p y).target = target
    ∧ (OrbitCamera.new target d p y).focus = Vec3.default
    ∧ (OrbitCamera.new target d p y).distance
        = min (max (max d f32_EPSILON) OrbitCamera.MIN_DISTANCE) OrbitCamera.MAX_DISTANCE
    ∧ (OrbitCamera.new target d p y).pitch = p
    ∧ (OrbitCamera.new target d p y).yaw = y)
    ∧ (OrbitCamera.MAX_PITCH < (OrbitCamera.new none 10 2 10).pitch
    ∧ OrbitCamera.MAX_YAW < (OrbitCamera.new none 10 2 10).yaw
    ∧ ((OrbitCamera.new none 10 2 10).set_focus ⟨1, 1, 1⟩).pitch = 2
    ∧ ((OrbitCamera.new none 10 2 10).set_focus ⟨1, 1, 1⟩).yaw = 10
    ∧ ((OrbitCamera.new none 10 2 10).set_distance 7).pitch = 2
    ∧ ((OrbitCamera.new none 10 2 10).set_distance 7).yaw = 10
    ∧ ((OrbitCamera.new none 10 2 10).add_distance 1).pitch = 2
    ∧ ((OrbitCamera.new none 10 2 10).add_distance 1).yaw = 10) := by
  refine ⟨⟨rfl, rfl, rfl, rfl, rfl⟩, ?_, ?_, rfl, rfl, rfl, rfl, rfl, rfl⟩
  · show OrbitCamera.MAX_PITCH < 2
    have hlt := Real.pi_lt_d2
    unfold OrbitCamera.MAX_PITCH
    nlinarith
  · show OrbitCamera.MAX_YAW < 10
    have hlt := Real.pi_lt_d2
    rw [OrbitCamera.max_yaw_eq]
    linarith

/-- C9: each mutator overwrites only its own field; target and every other
field are returned unchanged. -/
theorem mutators_touch_only_their_field (c : OrbitCamera) (f : Vec3) (v : ℝ) :
    ((c.set_focus f).target = c.target ∧ (c.set_focus f).distance = c.distance
      ∧ (c.set_focus f).pitch = c.pitch ∧ (c.set_focus f).yaw = c.yaw)
    ∧ ((c.set_distance v).target = c.target ∧ (c.set_distance v).focus = c.focus
      ∧ (c.set_distance v).pitch = c.pitch ∧ (c.set_distance v).yaw = c.yaw)
    ∧ ((c.add_distance v).target = c.target ∧ (c.add_distance v).focus = c.focus
      ∧ (c.add_distance v).pitch = c.pitch ∧ (c.add_distance v).yaw = c.yaw)
    ∧ ((c.set_pitch v).target = c.target ∧ (c.set_pitch v).focus = c.focus
      ∧ (c.set_pitch v).distance = c.distance ∧ (c.set_pitch v).yaw = c.yaw)
    ∧ ((c.add_pitch v).target = c.target ∧ (c.add_pitch v).focus = c.focus
      ∧ (c.add_pitch v).distance = c.distance ∧ (c.add_pitch v).yaw = c.yaw)
    ∧ ((c.set_yaw v).target = c.target ∧ (c.set_yaw v).focus = c.focus
      ∧ (c.set_yaw v).distance = c.distance ∧ (c.set_yaw v).pitch = c.pitch)
    ∧ ((c.add_yaw v).target = c.target ∧ (c.add_yaw v).focus = c.focus
      ∧ (c.add_yaw v).distance = c.distance ∧ (c.add_yaw v).pitch = c.pitch) :=
  ⟨⟨rfl, rfl, rfl, rfl⟩, ⟨rfl, rfl, rfl, rfl⟩, ⟨rfl, rfl, rfl, rfl⟩,
    ⟨rfl, rfl, rfl, rfl⟩, ⟨rfl, rfl, rfl, rfl⟩, ⟨rfl, rfl, rfl, rfl⟩,
    ⟨rfl, rfl, rfl, rfl⟩⟩

/-- The distance clamp as the spec words it: a plain two-sided clamp with
no epsilon floor. -/
def clamp_distance_spec (d : ℝ) : ℝ :=
  min (max d OrbitCamera.MIN_DISTANCE) OrbitCamera.MAX_DISTANCE

/-- C10: the chained max(EPSILON).max(MIN_DISTANCE).min(MAX_DISTANCE)
expression of set_distance and of new equals the plain two-sided clamp for
every input: the epsilon floor never determines the result because
EPSILON < MIN_DISTANCE. -/
theorem set_distance_eq_simple_clamp (c : OrbitCamera) (d : ℝ)
    (target : Option Entity) (p y : ℝ) :
    (c.set_distance d).distance = clamp_distance_spec d
    ∧ (OrbitCamera.new target d p y).distance = clamp_distance_spec d
    ∧ f32_EPSILON < OrbitCamera.MIN_DISTANCE := by
  have key : max (max d f32_EPSILON) OrbitCamera.MIN_DISTANCE
      = max d OrbitCamera.MIN_DISTANCE := by
    rw [max_assoc]
    congr 1
    exact max_eq_right (by norm_num [f32_EPSILON, OrbitCamera.MIN_DISTANCE])
  refine ⟨?_, ?_, by norm_num [f32_EPSILON, OrbitCamera.MIN_DISTANCE]⟩
  · show min (max (max d f32_EPSILON) OrbitCamera.MIN_DISTANCE)
        OrbitCamera.MAX_DISTANCE = clamp_distance_spec d
    rw [key]
    rfl
  · show min (max (max d f32_EPSILON) OrbitCamera.MIN_DISTANCE)
        OrbitCamera.MAX_DISTANCE = clamp_distance_spec d
    rw [key]
    rfl

end
